import Mathlib

/-!
Verification of the asynchronous event-propagation core of the
`user-manager-api` repository: the bounded event queue, the RabbitMQ
publisher worker (`internal/infrastructure/mq`), the RabbitMQ consumer
worker (`pkg/rmqconsumer`), and the lifecycle orchestrator (`internal`,
`App.Run`).  Go code is shallowly embedded: pure computations become Lean
functions, the two worker loops become explicit recursions over the
pending inputs plus an explicit schedule of `select` choices, and the
external AMQP broker (an external collaborator, not part of the
repository) is modelled as an explicit state of declared exchanges,
queues and bindings with AMQP 0-9-1 declare semantics.
-/

/-- Go `time.Time`, reduced to what the core observes: a calendar year
(which decides whether `json.Marshal` succeeds, since Go's
`Time.MarshalJSON` errors outside years 0..9999) and an abstract
instant identifying the RFC3339 rendering. -/
structure GoTime where
  year : Int
  nano : Nat
deriving DecidableEq, Repr

/-- Go's `Time.MarshalJSON` succeeds iff the year is within [0, 9999]. -/
def GoTime.marshalOk (t : GoTime) : Bool :=
  decide (0 ≤ t.year) && decide (t.year ≤ 9999)

/-- The REST user DTO `dto/user.User` (`response.go`): fields with their
JSON tags `uuid`, `email`, `name`, `lastname`, `birth_date`, `phone`.
The `uuid.UUID` field is kept in its rendered string form. -/
structure User where
  uuid : String
  email : String
  name : String
  lastname : String
  birthDate : GoTime
  phone : String
deriving DecidableEq, Repr

/-- Structure `mq.Event` (`internal/infrastructure/mq`): the domain-change event
with JSON tags `event_id`, `time_stamp`, `event_action`, `user_id`,
`user_payload`.  `Id uuid.UUID` is kept in its rendered string form. -/
structure Event where
  id : String
  ts : GoTime
  method : String
  userID : String
  payload : User
deriving DecidableEq, Repr

/-- JSON values, as far as the transport envelope needs them: strings,
RFC3339-rendered times, and objects with ordered fields (Go's
`encoding/json` emits struct fields in declaration order). -/
inductive JsonVal where
  | str (s : String)
  | timeRFC3339 (t : GoTime)
  | obj (fields : List (String × JsonVal))

/-- JSON serialization of the user payload, per the tags on
`dto/user.User`. -/
def User.json (u : User) : JsonVal :=
  .obj [("uuid", .str u.uuid), ("email", .str u.email),
        ("name", .str u.name), ("lastname", .str u.lastname),
        ("birth_date", .timeRFC3339 u.birthDate), ("phone", .str u.phone)]

/-- Whether `json.Marshal` of an `mq.Event` succeeds: both contained
`time.Time` values (the event timestamp and the payload birth date)
must be marshallable. -/
def Event.marshalOk (e : Event) : Bool :=
  e.ts.marshalOk && e.payload.birthDate.marshalOk

/-- Model of `json.Marshal(e)` for an `mq.Event`: the five-key object dictated by
the struct tags, or the marshalling error Go reports for an
out-of-range time. -/
def Event.marshalJson (e : Event) : Except String JsonVal :=
  if e.marshalOk then
    .ok (.obj [("event_id", .str e.id), ("time_stamp", .timeRFC3339 e.ts),
               ("event_action", .str e.method), ("user_id", .str e.userID),
               ("user_payload", e.payload.json)])
  else
    .error "json: unsupported value: Time.MarshalJSON: year outside of range [0,9999]"

/-- Configuration `config.MQ`: exchange name, exchange type and queue name, loaded
from the environment. -/
structure MQ where
  exchange : String
  exchangeType : String
  queueName : String
deriving DecidableEq, Repr

/-- AMQP delivery mode: `amqp091.Transient` (1) or `amqp091.Persistent` (2). -/
inductive DeliveryMode where
  | transient
  | persistent
deriving DecidableEq, Repr

/-- The `amqp091.Publishing` fields that `RabbitMQ.publish` sets. -/
structure Publishing where
  contentType : String
  deliveryMode : DeliveryMode
  messageId : String
  timestamp : GoTime
  typ : String
  body : JsonVal

/-- One call to `pubCh.PublishWithContext`, as a fake broker would
capture it: target exchange, routing key, the `mandatory` / `immediate`
flags and the message. -/
structure PublishCall where
  exchange : String
  routingKey : String
  mandatory : Bool
  immediate : Bool
  msg : Publishing

/-- Model of `RabbitMQ.publish` (`internal/infrastructure/mq`, lines 139-169):
marshal the event (returning the marshalling error on failure, in which
case no broker call happens), then publish to the configured exchange
under routing key `e.Method` with content type `application/json`,
persistent delivery mode, message id `e.Id.String()`, timestamp `e.TS`
and type `e.Method`. -/
def RabbitMQ.publish (cfg : MQ) (e : Event) : Except String PublishCall :=
  match e.marshalJson with
  | .error err => .error err
  | .ok b =>
      .ok { exchange := cfg.exchange
            routingKey := e.method
            mandatory := true
            immediate := false
            msg := { contentType := "application/json"
                     deliveryMode := .persistent
                     messageId := e.id
                     timestamp := e.ts
                     typ := e.method
                     body := b } }

/-- The routing-key switch inside `Consumer.delivery`
(`pkg/rmqconsumer`, lines 137-145): `var action string` followed by a
switch without default, so unknown keys leave the zero value `""`. -/
def Consumer.deliveryAction (routingKey : String) : String :=
  if routingKey = "POST" then "UserCreated"
  else if routingKey = "PUT" then "UserUpdated"
  else if routingKey = "DELETE" then "UserDeleted"
  else ""

/-- An `amqp091.Delivery` as the consumer observes it: routing key and
raw body. -/
structure Delivery where
  routingKey : String
  body : String
deriving DecidableEq, Repr

/-- Model of `Consumer.delivery` (`pkg/rmqconsumer`, lines 133-154): derive the
action label from the routing key, print `Action=<label>
EventBody=<body>` to stdout, and return `nil`.  Result: (returned
error, stdout line). -/
def Consumer.delivery (msg : Delivery) : Option String × String :=
  (none,
   "Action=" ++ Consumer.deliveryAction msg.routingKey ++
   " EventBody=" ++ msg.body ++ "\n")

/-! ## The event queue (`r.in`, a buffered Go channel)

`mq.New` creates `make(chan Event, bufferSize)` with `bufferSize = 128`.
Go channel semantics for `ch <- e`: a send on a closed channel panics
immediately; a send on an open channel with buffer space is accepted;
a send on an open full channel suspends the sender. -/

/-- Constant `mq.bufferSize`. -/
def bufferSize : Nat := 128

/-- State of the buffered `chan Event`. -/
structure EventChan where
  capacity : Nat
  buf : List Event
  closed : Bool
deriving DecidableEq, Repr

/-- The channel `mq.New` allocates: `make(chan Event, bufferSize)`. -/
def newEventChan : EventChan :=
  { capacity := bufferSize, buf := [], closed := false }

/-- Outcome of one `ch <- e` attempt. -/
inductive SendResult where
  | accepted (c : EventChan)
  | blocked
  | panicked (msg : String)
deriving DecidableEq, Repr

/-- Go semantics of `ch <- e` on a buffered channel: panic if closed,
append to the buffer if there is room, otherwise suspend the sender. -/
def chanSend (c : EventChan) (e : Event) : SendResult :=
  if c.closed then .panicked "send on closed channel"
  else if c.buf.length < c.capacity then
    .accepted { c with buf := c.buf ++ [e] }
  else .blocked

/-- Enqueue a whole sequence, requiring every send to be accepted
immediately (the queue has spare capacity throughout): `none` if some
send blocked or panicked. -/
def enqueueAll (c : EventChan) : List Event → Option EventChan
  | [] => some c
  | e :: rest =>
      match chanSend c e with
      | .accepted c' => enqueueAll c' rest
      | _ => none

/-! ## The publisher worker (`RabbitMQ.PublisherWorker`)

The loop `select { case e := <-r.in: publish; log on error | case
<-ctx.Done(): close(r.in); pubCh.Close(); return }`.  Broker-side
publish failures are modelled by an oracle `bfail`: the call is still
made (a capturing fake broker records it) but returns an error, which
the worker only logs; a marshalling failure makes no broker call.  In
both failure cases the worker moves on to the next event. -/

/-- One iteration's effect of the `case e := <-r.in` branch: the broker
calls made (one on marshal success, none on marshal failure) and the
error-log lines produced (`mq publish error` on either failure). -/
def publishStep (cfg : MQ) (bfail : Event → Bool) (e : Event) :
    List PublishCall × List String :=
  match RabbitMQ.publish cfg e with
  | .error err => ([], ["mq publish error: " ++ err])
  | .ok call =>
      if bfail e then ([call], ["mq publish error: broker publish failed"])
      else ([call], [])

/-- Worker trace while the context is alive: only the receive case of
the `select` is ever ready, so the worker drains the pending events in
FIFO order, one `publish` per dequeued event, never retrying and never
requeueing. -/
structure DrainResult where
  calls : List PublishCall
  errLog : List String

/-- Run of `PublisherWorker` over the pending queue contents while the
context is not cancelled. -/
def PublisherWorker.drain (cfg : MQ) (bfail : Event → Bool) :
    List Event → DrainResult
  | [] => { calls := [], errLog := [] }
  | e :: rest =>
      let s := publishStep cfg bfail e
      let r := PublisherWorker.drain cfg bfail rest
      { calls := s.1 ++ r.calls, errLog := s.2 ++ r.errLog }

/-- Result of running `PublisherWorker` after the context has been
cancelled: calls made, error log, the events still buffered (never
flushed) when the worker returned, and whether the worker has taken the
`ctx.Done()` branch (closing `r.in` and the publish channel) yet. -/
structure CancelResult where
  calls : List PublishCall
  errLog : List String
  remaining : List Event
  stopped : Bool

/-- Run of `PublisherWorker` with the context already cancelled.  While
events are buffered, both `select` cases are ready and Go chooses
between them nondeterministically; the schedule `sched` lists those
choices (`true` = take `ctx.Done()`).  With the buffer empty only the
`ctx.Done()` case is ready.  Taking the `ctx.Done()` branch closes the
channel and returns at once: nothing is flushed.  An exhausted schedule
leaves the worker mid-loop (`stopped := false`). -/
def PublisherWorker.runCancelled (cfg : MQ) (bfail : Event → Bool) :
    List Bool → List Event → CancelResult
  | [], q => { calls := [], errLog := [], remaining := q, stopped := false }
  | _ :: _, [] => { calls := [], errLog := [], remaining := [], stopped := true }
  | pick :: rest, e :: q =>
      if pick then
        { calls := [], errLog := [], remaining := e :: q, stopped := true }
      else
        let s := publishStep cfg bfail e
        let r := PublisherWorker.runCancelled cfg bfail rest q
        { calls := s.1 ++ r.calls, errLog := s.2 ++ r.errLog,
          remaining := r.remaining, stopped := r.stopped }

/-! ## Broker topology state and declare semantics

The AMQP broker is an external collaborator.  Its declare operations
are modelled with AMQP 0-9-1 semantics: `ExchangeDeclare` /
`QueueDeclare` assert-or-create — redeclaring an existing entity with
identical parameters succeeds and changes nothing, a parameter mismatch
is a channel error; `QueueBind` requires both endpoints to exist and an
already-present identical binding is a no-op. -/

/-- Parameters of a declared exchange: type plus the `durable`,
`autoDelete`, `internal` flags. -/
structure ExchangeProps where
  typ : String
  durable : Bool
  autoDelete : Bool
  internal : Bool
deriving DecidableEq, Repr

/-- Parameters of a declared queue: `durable`, `autoDelete`,
`exclusive` flags. -/
structure QueueProps where
  durable : Bool
  autoDelete : Bool
  exclusive : Bool
deriving DecidableEq, Repr

/-- Broker-side topology state: declared exchanges and queues by name,
and the set of (queue, routing key, exchange) bindings. -/
structure Broker where
  exchanges : List (String × ExchangeProps)
  queues : List (String × QueueProps)
  bindings : List (String × String × String)
deriving DecidableEq, Repr

/-- A broker with nothing declared. -/
def Broker.empty : Broker := { exchanges := [], queues := [], bindings := [] }

/-- Model of `ExchangeDeclare(name, typ, durable, autoDelete, internal, noWait,
nil)` against the modelled broker. -/
def exchangeDeclare (b : Broker) (name : String) (p : ExchangeProps) :
    Except String Broker :=
  match b.exchanges.lookup name with
  | some q =>
      if q = p then .ok b
      else .error "PRECONDITION_FAILED - inequivalent arg for exchange"
  | none => .ok { b with exchanges := (name, p) :: b.exchanges }

/-- Model of `QueueDeclare(name, durable, autoDelete, exclusive, noWait, nil)`:
returns the updated broker and the declared queue's name (`q.Name`). -/
def queueDeclare (b : Broker) (name : String) (p : QueueProps) :
    Except String (Broker × String) :=
  match b.queues.lookup name with
  | some q =>
      if q = p then .ok (b, name)
      else .error "PRECONDITION_FAILED - inequivalent arg for queue"
  | none => .ok ({ b with queues := (name, p) :: b.queues }, name)

/-- Model of `QueueBind(queue, key, exchange, noWait, nil)`. -/
def queueBind (b : Broker) (queue key exchange : String) :
    Except String Broker :=
  if (b.queues.lookup queue).isNone then .error "NOT_FOUND - no queue"
  else if (b.exchanges.lookup exchange).isNone then .error "NOT_FOUND - no exchange"
  else if (queue, key, exchange) ∈ b.bindings then .ok b
  else .ok { b with bindings := (queue, key, exchange) :: b.bindings }

/-- Bind the queue to the exchange once per routing key, in order,
stopping at the first error (the `for _, rk := range` loops in both
`Init`s). -/
def bindAll (b : Broker) (queue exchange : String) :
    List String → Except String Broker
  | [] => .ok b
  | rk :: rest =>
      match queueBind b queue rk exchange with
      | .error e => .error e
      | .ok b' => bindAll b' queue exchange rest

/-- The three routing keys bound at startup: `http.MethodPost`,
`http.MethodPut`, `http.MethodDelete`. -/
def routingKeys : List String := ["POST", "PUT", "DELETE"]

/-- Model of `RabbitMQ.Init` (`internal/infrastructure/mq`, lines 78-115):
declare the durable exchange (`cfg.Exchange`, `cfg.ExchangeType`,
durable, not auto-delete, not internal), declare the durable queue
(`cfg.QueueName`), then bind `q.Name` to the exchange under POST, PUT,
DELETE. -/
def RabbitMQ.Init (cfg : MQ) (b : Broker) : Except String Broker :=
  match exchangeDeclare b cfg.exchange
      { typ := cfg.exchangeType, durable := true,
        autoDelete := false, internal := false } with
  | .error e => .error e
  | .ok b1 =>
      match queueDeclare b1 cfg.queueName
          { durable := true, autoDelete := false, exclusive := false } with
      | .error e => .error e
      | .ok (b2, qName) => bindAll b2 qName cfg.exchange routingKeys

/-- The topology-declaration part of `Consumer.Init`
(`pkg/rmqconsumer`, lines 52-87): the same durable exchange and durable
queue declares as the publisher side, then the three binds using
`cfg.QueueName` directly.  (The following QoS and Consume calls of
`Consumer.Init` are modelled separately by `Consumer.initSubscribe`.) -/
def Consumer.initTopology (cfg : MQ) (b : Broker) : Except String Broker :=
  match exchangeDeclare b cfg.exchange
      { typ := cfg.exchangeType, durable := true,
        autoDelete := false, internal := false } with
  | .error e => .error e
  | .ok b1 =>
      match queueDeclare b1 cfg.queueName
          { durable := true, autoDelete := false, exclusive := false } with
      | .error e => .error e
      | .ok (b2, _) => bindAll b2 cfg.queueName cfg.exchange routingKeys

/-! ## Consumer subscription and delivery worker -/

/-- Constant `pkg/rmqconsumer.preFetchCount`. -/
def preFetchCount : Nat := 1

/-- Arguments of the `chConsume.Qos` call. -/
structure QosCall where
  prefetchCount : Nat
  prefetchSize : Nat
  global : Bool
deriving DecidableEq, Repr

/-- Arguments of the `chConsume.Consume` call. -/
structure ConsumeCall where
  queue : String
  consumer : String
  autoAck : Bool
  exclusive : Bool
  noLocal : Bool
  noWait : Bool
deriving DecidableEq, Repr

/-- The subscription part of `Consumer.Init` (`pkg/rmqconsumer`, lines
89-105): `Qos(preFetchCount, 0, false)` followed by
`Consume(cfg.QueueName, "", true, false, false, false, nil)`. -/
def Consumer.initSubscribe (cfg : MQ) : QosCall × ConsumeCall :=
  ({ prefetchCount := preFetchCount, prefetchSize := 0, global := false },
   { queue := cfg.queueName, consumer := "", autoAck := true,
     exclusive := false, noLocal := false, noWait := false })

/-- Observable trace of the delivery worker's loop over a batch of
deliveries: how many messages it took off the stream, the error-log
lines, and the manual `Ack`/`Nack` calls it issued (the loop body
contains none — acknowledgement is automatic at delivery time). -/
structure ConsumeTrace where
  processed : Nat
  errLog : List String
  acks : Nat
  nacks : Nat
deriving DecidableEq, Repr

/-- The `case msg := <-c.chDelivery` branch of `Consumer.DeliveryWorker`
(`pkg/rmqconsumer`, lines 117-131), run over the pending deliveries with
the context alive, with the per-delivery handler abstracted (the real
worker uses `Consumer.delivery`): call the handler, log
`mq read message error` when it returns a non-nil error, and continue
with the next delivery either way.  No `Ack` or `Nack` is ever issued. -/
def Consumer.deliveryWorkerDrainWith
    (handler : Delivery → Option String × String) :
    List Delivery → ConsumeTrace
  | [] => { processed := 0, errLog := [], acks := 0, nacks := 0 }
  | m :: rest =>
      let r := Consumer.deliveryWorkerDrainWith handler rest
      match (handler m).1 with
      | some err =>
          { processed := r.processed + 1,
            errLog := ("mq read message error: " ++ err) :: r.errLog,
            acks := r.acks, nacks := r.nacks }
      | none =>
          { processed := r.processed + 1, errLog := r.errLog,
            acks := r.acks, nacks := r.nacks }

/-! ## The lifecycle orchestrator's shutdown path (`App.Run`)

`App.Run` (`internal/app.go`, lines 149-199) blocks on `<-ctx.Done()`,
then shuts the HTTP listener down with a 5-second grace period and, if
that succeeded, calls `g.Wait()` — the only point at which the
publisher-worker and consumer-worker goroutines are waited on. -/

/-- The observable operations of `App.Run`'s shutdown path. -/
inductive RunOp where
  | shutdownHTTP
  | waitGroup
deriving DecidableEq, Repr

/-- Outcome of `App.Run` from `<-ctx.Done()` onward: the ordered trace
of operations performed and the returned error. -/
structure ShutdownOutcome where
  trace : List RunOp
  ret : Option String
deriving DecidableEq, Repr

/-- Model of `App.Run`'s code after `<-ctx.Done()`: if `a.httpSrv != nil`, call
`a.httpSrv.Shutdown`; a non-nil shutdown error is logged and returned
immediately.  Otherwise `g.Wait()` runs and its error, if any, is
returned; else Run returns nil.  `shutdownErr` and `waitErr` are the
errors those two calls would report. -/
def App.runShutdownPhase (httpSrvNonNil : Bool)
    (shutdownErr waitErr : Option String) : ShutdownOutcome :=
  if httpSrvNonNil then
    match shutdownErr with
    | some e => { trace := [.shutdownHTTP], ret := some e }
    | none =>
        match waitErr with
        | some e => { trace := [.shutdownHTTP, .waitGroup], ret := some e }
        | none => { trace := [.shutdownHTTP, .waitGroup], ret := none }
  else
    match waitErr with
    | some e => { trace := [.waitGroup], ret := some e }
    | none => { trace := [.waitGroup], ret := none }

/-! ## Spec-side descriptions and helper lemmas -/

/-- The transport envelope the spec (§6) prescribes for an event: the
JSON object `{event_id, time_stamp, event_action, user_id,
user_payload}` serialized from that event. -/
def eventEnvelope (e : Event) : JsonVal :=
  .obj [("event_id", .str e.id), ("time_stamp", .timeRFC3339 e.ts),
        ("event_action", .str e.method), ("user_id", .str e.userID),
        ("user_payload", e.payload.json)]

/-- The publish call the spec (§6) prescribes for an event: the
configured exchange, routing key = the event's action, content type
`application/json`, persistent delivery, message-id = event id, type =
action token, timestamp = event time, body = the envelope. -/
def specCall (cfg : MQ) (e : Event) : PublishCall :=
  { exchange := cfg.exchange
    routingKey := e.method
    mandatory := true
    immediate := false
    msg := { contentType := "application/json"
             deliveryMode := .persistent
             messageId := e.id
             timestamp := e.ts
             typ := e.method
             body := eventEnvelope e } }

theorem publish_ok_of_marshalOk (cfg : MQ) (e : Event)
    (h : e.marshalOk = true) :
    RabbitMQ.publish cfg e = .ok (specCall cfg e) := by
  simp [RabbitMQ.publish, Event.marshalJson, h, specCall, eventEnvelope]

theorem publishStep_calls_of_marshalOk (cfg : MQ) (bfail : Event → Bool)
    (e : Event) (h : e.marshalOk = true) :
    (publishStep cfg bfail e).1 = [specCall cfg e] := by
  unfold publishStep
  rw [publish_ok_of_marshalOk cfg e h]
  by_cases hb : bfail e <;> simp [hb]

theorem publishStep_errLog_of_marshalOk (cfg : MQ) (bfail : Event → Bool)
    (e : Event) (h : e.marshalOk = true) :
    (publishStep cfg bfail e).2 =
      if bfail e then ["mq publish error: broker publish failed"] else [] := by
  unfold publishStep
  rw [publish_ok_of_marshalOk cfg e h]
  by_cases hb : bfail e <;> simp [hb]

theorem drain_calls_eq (cfg : MQ) (bfail : Event → Bool) :
    ∀ events : List Event, (∀ e ∈ events, e.marshalOk = true) →
      (PublisherWorker.drain cfg bfail events).calls =
        events.map (specCall cfg)
  | [], _ => rfl
  | e :: rest, h => by
      have he : e.marshalOk = true := h e (List.mem_cons_self e rest)
      have hrest := drain_calls_eq cfg bfail rest
        (fun x hx => h x (List.mem_cons_of_mem e hx))
      simp [PublisherWorker.drain, publishStep_calls_of_marshalOk cfg bfail e he,
        hrest]

theorem drain_errLog_eq (cfg : MQ) (bfail : Event → Bool) :
    ∀ events : List Event, (∀ e ∈ events, e.marshalOk = true) →
      (PublisherWorker.drain cfg bfail events).errLog =
        (events.filter bfail).map
          (fun _ => "mq publish error: broker publish failed")
  | [], _ => rfl
  | e :: rest, h => by
      have he : e.marshalOk = true := h e (List.mem_cons_self e rest)
      have hrest := drain_errLog_eq cfg bfail rest
        (fun x hx => h x (List.mem_cons_of_mem e hx))
      by_cases hb : bfail e <;>
        simp [PublisherWorker.drain, publishStep_errLog_of_marshalOk cfg bfail e he,
          hrest, hb, List.filter_cons]

theorem enqueueAll_buf :
    ∀ (events : List Event) (c0 c : EventChan),
      enqueueAll c0 events = some c → c.buf = c0.buf ++ events
  | [], c0, c, h => by
      simp [enqueueAll] at h
      simp [← h]
  | e :: rest, c0, c, h => by
      unfold enqueueAll at h
      unfold chanSend at h
      by_cases hc : c0.closed
      · simp [hc] at h
      · by_cases hlen : c0.buf.length < c0.capacity
        · simp [hc, hlen] at h
          have := enqueueAll_buf rest
            { capacity := c0.capacity, buf := c0.buf ++ [e], closed := false } c h
          simpa using this
        · simp [hc, hlen] at h

theorem runCancelled_split (cfg : MQ) (bfail : Event → Bool) :
    ∀ (sched : List Bool) (events : List Event),
      (∀ e ∈ events, e.marshalOk = true) →
      (PublisherWorker.runCancelled cfg bfail sched events).stopped = true →
      ∃ k, k ≤ events.length ∧
        (PublisherWorker.runCancelled cfg bfail sched events).calls =
          (events.take k).map (specCall cfg) ∧
        (PublisherWorker.runCancelled cfg bfail sched events).remaining =
          events.drop k
  | [], events, _, hstop => by
      simp [PublisherWorker.runCancelled] at hstop
  | _ :: _, [], _, _ =>
      ⟨0, by simp [PublisherWorker.runCancelled]⟩
  | pick :: rest, e :: q, hok, hstop => by
      by_cases hp : pick
      · exact ⟨0, by simp [PublisherWorker.runCancelled, hp]⟩
      · have he : e.marshalOk = true := hok e (List.mem_cons_self e q)
        have hstop' : (PublisherWorker.runCancelled cfg bfail rest q).stopped = true := by
          simpa [PublisherWorker.runCancelled, hp] using hstop
        obtain ⟨k, hk, hcalls, hrem⟩ := runCancelled_split cfg bfail rest q
          (fun x hx => hok x (List.mem_cons_of_mem e hx)) hstop'
        refine ⟨k + 1, by simpa using Nat.succ_le_succ hk, ?_, ?_⟩
        · simp [PublisherWorker.runCancelled, hp,
            publishStep_calls_of_marshalOk cfg bfail e he, hcalls]
        · simp [PublisherWorker.runCancelled, hp, hrem]

/-- Broker-side topology invariant established by a successful
declaration run for `cfg`: the durable exchange, the durable queue and
the three bindings are all present. -/
def hasTopology (cfg : MQ) (b : Broker) : Prop :=
  b.exchanges.lookup cfg.exchange =
    some { typ := cfg.exchangeType, durable := true,
           autoDelete := false, internal := false } ∧
  b.queues.lookup cfg.queueName =
    some { durable := true, autoDelete := false, exclusive := false } ∧
  ∀ rk ∈ routingKeys, (cfg.queueName, rk, cfg.exchange) ∈ b.bindings

theorem exchangeDeclare_ok_spec (b b1 : Broker) (name : String)
    (p : ExchangeProps) (h : exchangeDeclare b name p = .ok b1) :
    b1.exchanges.lookup name = some p ∧ b1.queues = b.queues ∧
      b1.bindings = b.bindings := by
  unfold exchangeDeclare at h
  split at h
  · rename_i q hl
    split at h
    · rename_i hqp
      cases h
      exact ⟨by rw [hl, hqp], rfl, rfl⟩
    · cases h
  · rename_i hl
    cases h
    refine ⟨?_, rfl, rfl⟩
    simp [List.lookup]

theorem queueDeclare_ok_spec (b b2 : Broker) (name nm : String)
    (p : QueueProps) (h : queueDeclare b name p = .ok (b2, nm)) :
    nm = name ∧ b2.queues.lookup name = some p ∧
      b2.exchanges = b.exchanges ∧ b2.bindings = b.bindings := by
  unfold queueDeclare at h
  split at h
  · rename_i q hl
    split at h
    · rename_i hqp
      cases h
      exact ⟨rfl, by rw [hl, hqp], rfl, rfl⟩
    · cases h
  · rename_i hl
    cases h
    refine ⟨rfl, ?_, rfl, rfl⟩
    simp [List.lookup]

theorem queueBind_ok_spec (b b' : Broker) (q k x : String)
    (h : queueBind b q k x = .ok b') :
    b'.exchanges = b.exchanges ∧ b'.queues = b.queues ∧
      (q, k, x) ∈ b'.bindings ∧
      ∀ t ∈ b.bindings, t ∈ b'.bindings := by
  unfold queueBind at h
  split at h
  · cases h
  · split at h
    · cases h
    · split at h
      · rename_i hmem
        cases h
        exact ⟨rfl, rfl, hmem, fun t ht => ht⟩
      · cases h
        refine ⟨rfl, rfl, List.mem_cons_self _ _, fun t ht => List.mem_cons_of_mem _ ht⟩

theorem bindAll_ok_spec (qn xn : String) :
    ∀ (rks : List String) (b b' : Broker),
      bindAll b qn xn rks = .ok b' →
      b'.exchanges = b.exchanges ∧ b'.queues = b.queues ∧
        (∀ rk ∈ rks, (qn, rk, xn) ∈ b'.bindings) ∧
        ∀ t ∈ b.bindings, t ∈ b'.bindings
  | [], b, b', h => by
      cases h
      exact ⟨rfl, rfl, by simp, fun t ht => ht⟩
  | rk :: rest, b, b', h => by
      unfold bindAll at h
      split at h
      · cases h
      · rename_i bmid hbind
        obtain ⟨hx1, hq1, hmem1, hpres1⟩ := queueBind_ok_spec b bmid qn rk xn hbind
        obtain ⟨hx2, hq2, hmem2, hpres2⟩ := bindAll_ok_spec qn xn rest bmid b' h
        refine ⟨hx2.trans hx1, hq2.trans hq1, ?_, fun t ht => hpres2 t (hpres1 t ht)⟩
        intro r hr
        rcases List.mem_cons.mp hr with hr | hr
        · exact hr ▸ hpres2 _ hmem1
        · exact hmem2 r hr

theorem rabbitInit_hasTopology (cfg : MQ) (b b' : Broker)
    (h : RabbitMQ.Init cfg b = .ok b') : hasTopology cfg b' := by
  unfold RabbitMQ.Init at h
  split at h
  · cases h
  · rename_i b1 hx
    split at h
    · cases h
    · rename_i b2 qn hq
      obtain ⟨hx1, -, -⟩ := exchangeDeclare_ok_spec b b1 cfg.exchange _ hx
      obtain ⟨hnm, hq1, hq2, -⟩ := queueDeclare_ok_spec b1 b2 cfg.queueName qn _ hq
      obtain ⟨hb1, hb2, hb3, -⟩ := bindAll_ok_spec qn cfg.exchange routingKeys b2 b' h
      refine ⟨?_, ?_, ?_⟩
      · rw [hb1, hq2, hx1]
      · rw [hb2, hq1]
      · intro rk hrk
        have := hb3 rk hrk
        rwa [hnm] at this

theorem consumerInit_hasTopology (cfg : MQ) (b b' : Broker)
    (h : Consumer.initTopology cfg b = .ok b') : hasTopology cfg b' := by
  unfold Consumer.initTopology at h
  split at h
  · cases h
  · rename_i b1 hx
    split at h
    · cases h
    · rename_i b2 qn hq
      obtain ⟨hx1, -, -⟩ := exchangeDeclare_ok_spec b b1 cfg.exchange _ hx
      obtain ⟨hnm, hq1, hq2, -⟩ := queueDeclare_ok_spec b1 b2 cfg.queueName qn _ hq
      obtain ⟨hb1, hb2, hb3, -⟩ :=
        bindAll_ok_spec cfg.queueName cfg.exchange routingKeys b2 b' h
      exact ⟨by rw [hb1, hq2, hx1], by rw [hb2, hq1], hb3⟩

theorem queueBind_noop (b : Broker) (q k x : String)
    (hq : (b.queues.lookup q).isNone = false)
    (hx : (b.exchanges.lookup x).isNone = false)
    (hmem : (q, k, x) ∈ b.bindings) :
    queueBind b q k x = .ok b := by
  unfold queueBind
  rw [if_neg (by simp [hq]), if_neg (by simp [hx]), if_pos hmem]

theorem rabbitInit_noop (cfg : MQ) (b : Broker) (h : hasTopology cfg b) :
    RabbitMQ.Init cfg b = .ok b := by
  obtain ⟨hx, hq, hbind⟩ := h
  have hqn : (b.queues.lookup cfg.queueName).isNone = false := by simp [hq]
  have hxn : (b.exchanges.lookup cfg.exchange).isNone = false := by simp [hx]
  have m1 := hbind "POST" (by simp [routingKeys])
  have m2 := hbind "PUT" (by simp [routingKeys])
  have m3 := hbind "DELETE" (by simp [routingKeys])
  have hxd : exchangeDeclare b cfg.exchange
      { typ := cfg.exchangeType, durable := true,
        autoDelete := false, internal := false } = .ok b := by
    unfold exchangeDeclare; rw [hx]; simp
  have hqd : queueDeclare b cfg.queueName
      { durable := true, autoDelete := false, exclusive := false } =
      .ok (b, cfg.queueName) := by
    unfold queueDeclare; rw [hq]; simp
  unfold RabbitMQ.Init
  rw [hxd]
  dsimp only
  rw [hqd]
  show bindAll b cfg.queueName cfg.exchange routingKeys = .ok b
  unfold routingKeys bindAll
  rw [queueBind_noop b cfg.queueName "POST" cfg.exchange hqn hxn m1]
  unfold bindAll
  rw [queueBind_noop b cfg.queueName "PUT" cfg.exchange hqn hxn m2]
  unfold bindAll
  rw [queueBind_noop b cfg.queueName "DELETE" cfg.exchange hqn hxn m3]
  rfl

theorem consumerInit_noop (cfg : MQ) (b : Broker) (h : hasTopology cfg b) :
    Consumer.initTopology cfg b = .ok b := by
  obtain ⟨hx, hq, hbind⟩ := h
  have hqn : (b.queues.lookup cfg.queueName).isNone = false := by simp [hq]
  have hxn : (b.exchanges.lookup cfg.exchange).isNone = false := by simp [hx]
  have m1 := hbind "POST" (by simp [routingKeys])
  have m2 := hbind "PUT" (by simp [routingKeys])
  have m3 := hbind "DELETE" (by simp [routingKeys])
  have hxd : exchangeDeclare b cfg.exchange
      { typ := cfg.exchangeType, durable := true,
        autoDelete := false, internal := false } = .ok b := by
    unfold exchangeDeclare; rw [hx]; simp
  have hqd : queueDeclare b cfg.queueName
      { durable := true, autoDelete := false, exclusive := false } =
      .ok (b, cfg.queueName) := by
    unfold queueDeclare; rw [hq]; simp
  unfold Consumer.initTopology
  rw [hxd]
  dsimp only
  rw [hqd]
  show bindAll b cfg.queueName cfg.exchange routingKeys = .ok b
  unfold routingKeys bindAll
  rw [queueBind_noop b cfg.queueName "POST" cfg.exchange hqn hxn m1]
  unfold bindAll
  rw [queueBind_noop b cfg.queueName "PUT" cfg.exchange hqn hxn m2]
  unfold bindAll
  rw [queueBind_noop b cfg.queueName "DELETE" cfg.exchange hqn hxn m3]
  rfl

/-! ## Concrete fixtures used by the witnesses -/

/-- A marshallable timestamp. -/
def t0 : GoTime := { year := 2024, nano := 0 }

/-- A user payload with a marshallable birth date. -/
def u0 : User :=
  { uuid := "4f3c", email := "ann@example.com", name := "Ann",
    lastname := "Lee", birthDate := { year := 1990, nano := 1 },
    phone := "123" }

/-- A create event. -/
def e0 : Event :=
  { id := "id-0", ts := t0, method := "POST", userID := "4f3c", payload := u0 }

/-- An update event. -/
def e1 : Event :=
  { id := "id-1", ts := t0, method := "PUT", userID := "4f3c", payload := u0 }

/-- A sample broker configuration. -/
def cfg0 : MQ :=
  { exchange := "user.events", exchangeType := "direct",
    queueName := "user.queue" }

/-- The channel state after enqueueing `e0` then `e1` into a fresh
queue. -/
def chan01 : EventChan :=
  { capacity := bufferSize, buf := [e0, e1], closed := false }

/-- A closed channel. -/
def closedChan : EventChan :=
  { capacity := bufferSize, buf := [], closed := true }

/-- The broker state produced by a first successful topology
declaration under `cfg0`. -/
def broker1 : Broker :=
  { exchanges := [("user.events",
      { typ := "direct", durable := true, autoDelete := false, internal := false })]
    queues := [("user.queue",
      { durable := true, autoDelete := false, exclusive := false })]
    bindings := [("user.queue", "DELETE", "user.events"),
                 ("user.queue", "PUT", "user.events"),
                 ("user.queue", "POST", "user.events")] }

/-! ## Claim theorems -/

/-- C1: for every sequence of N events enqueued into the event queue
while it has spare capacity (every send accepted immediately), the
publisher worker performs exactly N publish calls, the i-th carrying
the i-th event's id as message-id, in the order the events were
enqueued. -/
theorem publisher_publishes_each_event_in_order (cfg : MQ)
    (bfail : Event → Bool) (events : List Event) (c : EventChan)
    (henq : enqueueAll newEventChan events = some c)
    (hok : ∀ e ∈ events, e.marshalOk = true) :
    (PublisherWorker.drain cfg bfail c.buf).calls.length = events.length ∧
    (PublisherWorker.drain cfg bfail c.buf).calls.map
        (fun call => call.msg.messageId) = events.map (fun e => e.id) := by
  have hbuf : c.buf = events := by
    have := enqueueAll_buf events newEventChan c henq
    simpa [newEventChan] using this
  rw [hbuf, drain_calls_eq cfg bfail events hok]
  refine ⟨by simp, ?_⟩
  rw [List.map_map]
  rfl

/-- C1 witness: two concrete events, all enqueued with spare capacity,
yield two in-order publish calls. -/
theorem publisher_publishes_each_event_in_order_witness :
    (PublisherWorker.drain cfg0 (fun _ => false) chan01.buf).calls.length =
      [e0, e1].length ∧
    (PublisherWorker.drain cfg0 (fun _ => false) chan01.buf).calls.map
        (fun call => call.msg.messageId) = [e0, e1].map (fun e => e.id) :=
  publisher_publishes_each_event_in_order cfg0 (fun _ => false) [e0, e1]
    chan01 rfl (by decide)

/-- C2 counterexample: in `App.Run`'s shutdown path with a failing HTTP
shutdown, the error is surfaced but the trace contains no `g.Wait()`
call — the publisher and consumer worker tasks are not waited on before
Run returns, contrary to the claim. -/
theorem run_shutdown_error_skips_wait_counterexample :
    (App.runShutdownPhase true (some "http: context deadline exceeded") none).ret =
      some "http: context deadline exceeded" ∧
    RunOp.waitGroup ∉
      (App.runShutdownPhase true (some "http: context deadline exceeded") none).trace := by
  decide

/-- C2 (amended): if shutting down the HTTP listener returns an error,
`App.Run` surfaces that error and the overall run reports failure, but
it returns immediately without waiting for the publisher-worker and
consumer-worker tasks (`g.Wait()` is skipped). -/
theorem run_surfaces_shutdown_error_without_wait (e : String)
    (waitErr : Option String) :
    App.runShutdownPhase true (some e) waitErr =
      { trace := [RunOp.shutdownHTTP], ret := some e } := rfl

/-- C3: every message the publisher worker actually publishes for an
event has body equal to the five-key JSON envelope serialized from the
event, content type `application/json`, persistent delivery mode,
message-id the event's id, type the event's action token, timestamp the
event's time, and goes to the configured exchange under the routing key
equal to the event's action. -/
theorem publish_envelope_correct (cfg : MQ) (e : Event) (call : PublishCall)
    (h : RabbitMQ.publish cfg e = .ok call) :
    call.msg.body = eventEnvelope e ∧
    call.msg.contentType = "application/json" ∧
    call.msg.deliveryMode = DeliveryMode.persistent ∧
    call.msg.messageId = e.id ∧
    call.msg.typ = e.method ∧
    call.msg.timestamp = e.ts ∧
    call.exchange = cfg.exchange ∧
    call.routingKey = e.method := by
  unfold RabbitMQ.publish at h
  split at h
  · cases h
  · rename_i b hb
    cases h
    unfold Event.marshalJson at hb
    split at hb
    · cases hb
      exact ⟨rfl, rfl, rfl, rfl, rfl, rfl, rfl, rfl⟩
    · cases hb

/-- C3 witness: the concrete event `e0` published under `cfg0` carries
exactly the prescribed envelope and metadata. -/
theorem publish_envelope_correct_witness :
    (specCall cfg0 e0).msg.body = eventEnvelope e0 ∧
    (specCall cfg0 e0).msg.contentType = "application/json" ∧
    (specCall cfg0 e0).msg.deliveryMode = DeliveryMode.persistent ∧
    (specCall cfg0 e0).msg.messageId = e0.id ∧
    (specCall cfg0 e0).msg.typ = e0.method ∧
    (specCall cfg0 e0).msg.timestamp = e0.ts ∧
    (specCall cfg0 e0).exchange = cfg0.exchange ∧
    (specCall cfg0 e0).routingKey = e0.method :=
  publish_envelope_correct cfg0 e0 (specCall cfg0 e0) rfl

/-- C4: the consumer's routing-key to action-label mapping is exactly
POST to UserCreated, PUT to UserUpdated, DELETE to UserDeleted, and any
other routing key to the empty label. -/
theorem consumer_routing_key_mapping (rk : String)
    (h1 : rk ≠ "POST") (h2 : rk ≠ "PUT") (h3 : rk ≠ "DELETE") :
    Consumer.deliveryAction "POST" = "UserCreated" ∧
    Consumer.deliveryAction "PUT" = "UserUpdated" ∧
    Consumer.deliveryAction "DELETE" = "UserDeleted" ∧
    Consumer.deliveryAction rk = "" := by
  refine ⟨by decide, by decide, by decide, ?_⟩
  simp [Consumer.deliveryAction, h1, h2, h3]

/-- C4 witness: the four table-test routing keys, with `PATCH` as the
unknown key mapping to the empty label. -/
theorem consumer_routing_key_mapping_witness :
    Consumer.deliveryAction "POST" = "UserCreated" ∧
    Consumer.deliveryAction "PUT" = "UserUpdated" ∧
    Consumer.deliveryAction "DELETE" = "UserDeleted" ∧
    Consumer.deliveryAction "PATCH" = "" :=
  consumer_routing_key_mapping "PATCH" (by decide) (by decide) (by decide)

/-- C5: on a broker-side publish failure the worker logs `mq publish
error` once per failed event, the failed event is neither retried nor
requeued (each event yields exactly one publish call, in order), and
the loop keeps processing the remaining events (every event of the
batch, including those after a failure, gets its call). -/
theorem publisher_failure_logged_dropped_continues (cfg : MQ)
    (bfail : Event → Bool) (events : List Event)
    (hok : ∀ e ∈ events, e.marshalOk = true) :
    (PublisherWorker.drain cfg bfail events).calls.map
        (fun call => call.msg.messageId) = events.map (fun e => e.id) ∧
    (PublisherWorker.drain cfg bfail events).errLog =
      (events.filter bfail).map
        (fun _ => "mq publish error: broker publish failed") ∧
    (PublisherWorker.drain cfg bfail events).calls.length = events.length := by
  refine ⟨?_, drain_errLog_eq cfg bfail events hok, ?_⟩ <;>
    rw [drain_calls_eq cfg bfail events hok]
  · rw [List.map_map]
    rfl
  · simp

/-- C5 witness: `e0`'s publish fails and is only logged; `e1`, enqueued
after it, is still published, and both events yield exactly one call. -/
theorem publisher_failure_logged_dropped_continues_witness :
    (PublisherWorker.drain cfg0 (fun e => e.id == "id-0") [e0, e1]).calls.map
        (fun call => call.msg.messageId) = [e0, e1].map (fun e => e.id) ∧
    (PublisherWorker.drain cfg0 (fun e => e.id == "id-0") [e0, e1]).errLog =
      ([e0, e1].filter (fun e => e.id == "id-0")).map
        (fun _ => "mq publish error: broker publish failed") ∧
    (PublisherWorker.drain cfg0 (fun e => e.id == "id-0") [e0, e1]).calls.length =
      [e0, e1].length :=
  publisher_failure_logged_dropped_continues cfg0 (fun e => e.id == "id-0")
    [e0, e1] (by decide)

/-- C6: once the event queue's channel is closed (which the publisher
worker does once, in its `ctx.Done()` shutdown branch), any further
send on it fails immediately with Go's `send on closed channel` panic
rather than blocking. -/
theorem enqueue_after_close_fails_fast (c : EventChan) (e : Event)
    (h : c.closed = true) :
    chanSend c e = .panicked "send on closed channel" ∧
    chanSend c e ≠ SendResult.blocked := by
  refine ⟨by simp [chanSend, h], ?_⟩
  simp [chanSend, h]

/-- C6 witness: sending `e0` on a concrete closed channel panics at
once and does not block. -/
theorem enqueue_after_close_fails_fast_witness :
    chanSend closedChan e0 = .panicked "send on closed channel" ∧
    chanSend closedChan e0 ≠ SendResult.blocked :=
  enqueue_after_close_fails_fast closedChan e0 rfl

/-- C7: declaring the broker topology (durable exchange, durable queue,
POST/PUT/DELETE bindings) twice with identical parameters succeeds both
times — after a first successful declaration, a second run of either
`RabbitMQ.Init` or the declaration part of `Consumer.Init` succeeds and
leaves the broker state unchanged. -/
theorem topology_declare_idempotent (cfg : MQ) (b bm bc : Broker) :
    (RabbitMQ.Init cfg b = .ok bm →
      RabbitMQ.Init cfg bm = .ok bm ∧ Consumer.initTopology cfg bm = .ok bm) ∧
    (Consumer.initTopology cfg b = .ok bc →
      Consumer.initTopology cfg bc = .ok bc ∧ RabbitMQ.Init cfg bc = .ok bc) := by
  constructor
  · intro h
    have ht := rabbitInit_hasTopology cfg b bm h
    exact ⟨rabbitInit_noop cfg bm ht, consumerInit_noop cfg bm ht⟩
  · intro h
    have ht := consumerInit_hasTopology cfg b bc h
    exact ⟨consumerInit_noop cfg bc ht, rabbitInit_noop cfg bc ht⟩

/-- C7 witness: a concrete first declaration from an empty broker
produces `broker1`; re-declaring through either path is a successful
no-op. -/
theorem topology_declare_idempotent_witness :
    RabbitMQ.Init cfg0 broker1 = .ok broker1 ∧
    Consumer.initTopology cfg0 broker1 = .ok broker1 :=
  (topology_declare_idempotent cfg0 Broker.empty broker1 broker1).1 rfl

/-- C8: once the publisher worker takes the `ctx.Done()` branch it
stops with the still-buffered events unflushed: whatever the schedule
of `select` choices, if the worker has stopped while events remained
buffered, the published calls are exactly the first k enqueued events
for some k, the remaining events are the unpublished suffix, and the
published count is strictly less than the enqueued count. -/
theorem publisher_cancel_does_not_flush (cfg : MQ) (bfail : Event → Bool)
    (sched : List Bool) (events : List Event)
    (hok : ∀ e ∈ events, e.marshalOk = true)
    (hstop : (PublisherWorker.runCancelled cfg bfail sched events).stopped = true)
    (hrem : (PublisherWorker.runCancelled cfg bfail sched events).remaining ≠ []) :
    (PublisherWorker.runCancelled cfg bfail sched events).calls.length <
      events.length ∧
    (PublisherWorker.runCancelled cfg bfail sched events).remaining =
      events.drop
        ((PublisherWorker.runCancelled cfg bfail sched events).calls.length) := by
  obtain ⟨k, hk, hcalls, hrem2⟩ :=
    runCancelled_split cfg bfail sched events hok hstop
  have hlen : (PublisherWorker.runCancelled cfg bfail sched events).calls.length = k := by
    rw [hcalls, List.length_map, List.length_take]
    omega
  have hklt : k < events.length := by
    by_contra hge
    exact hrem (by rw [hrem2, List.drop_eq_nil_of_le (by omega)])
  exact ⟨by omega, by rw [hlen]; exact hrem2⟩

/-- C8 witness: queue pre-filled with two events and the `ctx.Done()`
branch taken at the first loop iteration — nothing is published, both
events remain, published count 0 is strictly below enqueued count 2. -/
theorem publisher_cancel_does_not_flush_witness :
    (PublisherWorker.runCancelled cfg0 (fun _ => false) [true] [e0, e1]).calls.length <
      [e0, e1].length ∧
    (PublisherWorker.runCancelled cfg0 (fun _ => false) [true] [e0, e1]).remaining =
      [e0, e1].drop
        ((PublisherWorker.runCancelled cfg0 (fun _ => false) [true] [e0, e1]).calls.length) :=
  publisher_cancel_does_not_flush cfg0 (fun _ => false) [true] [e0, e1]
    (by decide) rfl (by decide)

theorem deliveryWorkerDrainWith_spec
    (handler : Delivery → Option String × String) :
    ∀ msgs : List Delivery,
      (Consumer.deliveryWorkerDrainWith handler msgs).processed = msgs.length ∧
      (Consumer.deliveryWorkerDrainWith handler msgs).errLog.length =
        (msgs.filter (fun m => ((handler m).1).isSome)).length ∧
      (Consumer.deliveryWorkerDrainWith handler msgs).acks = 0 ∧
      (Consumer.deliveryWorkerDrainWith handler msgs).nacks = 0
  | [] => ⟨rfl, rfl, rfl, rfl⟩
  | m :: rest => by
      obtain ⟨hp, he, ha, hn⟩ := deliveryWorkerDrainWith_spec handler rest
      cases hm : (handler m).1 <;>
        simp [Consumer.deliveryWorkerDrainWith, hm, hp, he, ha, hn,
          List.filter_cons]

/-- C9: the consumer subscribes with prefetch count 1 and automatic
acknowledgement, so receipt counts as delivery regardless of handler
outcome; for any handler behaviour the worker loop processes every
delivery, logs exactly the handler errors, never issues a manual
`Ack`, and never issues a `Nack` (so nothing is ever returned to the
broker for redelivery), and an erroring delivery does not stop the
loop. -/
theorem consumer_auto_ack_prefetch_one (cfg : MQ)
    (handler : Delivery → Option String × String) (msgs : List Delivery) :
    (Consumer.initSubscribe cfg).1.prefetchCount = 1 ∧
    (Consumer.initSubscribe cfg).2.autoAck = true ∧
    (Consumer.deliveryWorkerDrainWith handler msgs).processed = msgs.length ∧
    (Consumer.deliveryWorkerDrainWith handler msgs).errLog.length =
      (msgs.filter (fun m => ((handler m).1).isSome)).length ∧
    (Consumer.deliveryWorkerDrainWith handler msgs).acks = 0 ∧
    (Consumer.deliveryWorkerDrainWith handler msgs).nacks = 0 :=
  ⟨rfl, rfl, deliveryWorkerDrainWith_spec handler msgs⟩

/-- C10: the consumer's per-delivery handler always returns `nil`, so
the error-logging branch of `Consumer.DeliveryWorker`'s dispatch loop
never fires: the worker's error log is empty on any input stream. -/
theorem consumer_delivery_never_errors (msg : Delivery)
    (msgs : List Delivery) :
    (Consumer.delivery msg).1 = none ∧
    (Consumer.deliveryWorkerDrainWith Consumer.delivery msgs).errLog = [] := by
  refine ⟨rfl, ?_⟩
  induction msgs with
  | nil => rfl
  | cons m rest ih =>
      simpa [Consumer.deliveryWorkerDrainWith, Consumer.delivery] using ih
